import Mathlib

/-!
# Verification of the ahkio_finvoice Finvoice/Apix module

A shallow embedding of `ahkio_finvoice/models/account_edi_format.py` and
`ahkio_finvoice/models/ahkio_apix.py`, with theorems settling the spec claims
about export validation, digest signing, tax aggregation, the Apix list and
download operations, import currency handling, field formatters and the
import-side authorization check.

Python strings are modelled as Lean `String`; Python string truthiness as
emptiness; Python dicts (insertion ordered) as association lists with
replace-in-place insertion; fallible code returns `Except`.  Monetary values
are modelled as exact decimal values (integer mantissa and a power-of-ten
exponent) or, where only the additive structure matters, as elements of an
arbitrary additive commutative group.
-/

namespace Ahkio

/-! ## Byte-level preliminaries and SHA-256 (FIPS 180-4)

The source signs every Apix request with `hashlib.sha256` over a UTF-8
encoded string.  We embed SHA-256 over `List Nat` bytes, with 32-bit words
represented as `Nat` reduced `% 2 ^ 32`. -/

/-- `2 ^ 32`, the word modulus of SHA-256. -/
def M32 : Nat := 4294967296

/-- Right rotation of a 32-bit word. -/
def rotr (n x : Nat) : Nat := ((x >>> n) ||| (x <<< (32 - n))) % M32

/-- Bitwise complement of a 32-bit word. -/
def wnot (x : Nat) : Nat := 4294967295 ^^^ x

/-- SHA-256 big sigma-0. -/
def bSig0 (x : Nat) : Nat := rotr 2 x ^^^ rotr 13 x ^^^ rotr 22 x

/-- SHA-256 big sigma-1. -/
def bSig1 (x : Nat) : Nat := rotr 6 x ^^^ rotr 11 x ^^^ rotr 25 x

/-- SHA-256 small sigma-0. -/
def sSig0 (x : Nat) : Nat := rotr 7 x ^^^ rotr 18 x ^^^ (x >>> 3)

/-- SHA-256 small sigma-1. -/
def sSig1 (x : Nat) : Nat := rotr 17 x ^^^ rotr 19 x ^^^ (x >>> 10)

/-- SHA-256 choice function. -/
def chFn (x y z : Nat) : Nat := (x &&& y) ^^^ (wnot x &&& z)

/-- SHA-256 majority function. -/
def majFn (x y z : Nat) : Nat := (x &&& y) ^^^ (x &&& z) ^^^ (y &&& z)

/-- The 64 SHA-256 round constants (FIPS 180-4, in decimal). -/
def shaK : List Nat :=
  [1116352408, 1899447441, 3049323471, 3921009573,
   961987163, 1508970993, 2453635748, 2870763221,
   3624381080, 310598401, 607225278, 1426881987,
   1925078388, 2162078206, 2614888103, 3248222580,
   3835390401, 4022224774, 264347078, 604807628,
   770255983, 1249150122, 1555081692, 1996064986,
   2554220882, 2821834349, 2952996808, 3210313671,
   3336571891, 3584528711, 113926993, 338241895,
   666307205, 773529912, 1294757372, 1396182291,
   1695183700, 1986661051, 2177026350, 2456956037,
   2730485921, 2820302411, 3259730800, 3345764771,
   3516065817, 3600352804, 4094571909, 275423344,
   430227734, 506948616, 659060556, 883997877,
   958139571, 1322822218, 1537002063, 1747873779,
   1955562222, 2024104815, 2227730452, 2361852424,
   2428436474, 2756734187, 3204031479, 3329325298]

/-- The eight working variables of the SHA-256 compression function. -/
structure ShaState where
  a : Nat
  b : Nat
  c : Nat
  d : Nat
  e : Nat
  f : Nat
  g : Nat
  h : Nat

/-- The SHA-256 initial hash value (FIPS 180-4, in decimal). -/
def shaInit : ShaState :=
  ⟨1779033703, 3144134277, 1013904242, 2773480762,
   1359893119, 2600822924, 528734635, 1541459225⟩

/-- One round of the SHA-256 compression function; `kw` is the pair of the
round constant and the schedule word. -/
def shaRound (s : ShaState) (kw : Nat × Nat) : ShaState :=
  let t1 := (s.h + bSig1 s.e + chFn s.e s.f s.g + kw.1 + kw.2) % M32
  let t2 := (bSig0 s.a + majFn s.a s.b s.c) % M32
  { a := (t1 + t2) % M32, b := s.a, c := s.b, d := s.c,
    e := (s.d + t1) % M32, f := s.e, g := s.f, h := s.g }

/-- Extend a 16-word message block to the 64-word schedule. -/
def extendSchedule (block : List Nat) : List Nat :=
  (List.range 48).foldl
    (fun ws i =>
      ws ++ [(sSig1 (ws.getD (i + 14) 0) + ws.getD (i + 9) 0 +
              sSig0 (ws.getD (i + 1) 0) + ws.getD i 0) % M32])
    block

/-- Process one 16-word block: run 64 rounds and add the result into the
chaining state. -/
def processBlock (hs : ShaState) (block : List Nat) : ShaState :=
  let s := ((shaK.zip (extendSchedule block))).foldl shaRound hs
  { a := (hs.a + s.a) % M32, b := (hs.b + s.b) % M32, c := (hs.c + s.c) % M32,
    d := (hs.d + s.d) % M32, e := (hs.e + s.e) % M32, f := (hs.f + s.f) % M32,
    g := (hs.g + s.g) % M32, h := (hs.h + s.h) % M32 }

/-- The 8-byte big-endian encoding of the message bit length. -/
def lenBytes (n : Nat) : List Nat :=
  [(n >>> 56) % 256, (n >>> 48) % 256, (n >>> 40) % 256, (n >>> 32) % 256,
   (n >>> 24) % 256, (n >>> 16) % 256, (n >>> 8) % 256, n % 256]

/-- SHA-256 message padding: append `0x80`, zero bytes up to 56 mod 64, then
the 64-bit big-endian bit length. -/
def padMessage (msg : List Nat) : List Nat :=
  msg ++ [128] ++ List.replicate ((119 - msg.length % 64) % 64) 0 ++ lenBytes (8 * msg.length)

/-- Group bytes into big-endian 32-bit words, four bytes at a time. -/
def bytesToWords : List Nat → List Nat
  | b0 :: b1 :: b2 :: b3 :: rest => (((b0 * 256 + b1) * 256 + b2) * 256 + b3) :: bytesToWords rest
  | _ => []

/-- Run the SHA-256 compression over all 16-word blocks of a padded message. -/
def sha256State (msg : List Nat) : ShaState :=
  let ws := bytesToWords (padMessage msg)
  (List.range (ws.length / 16)).foldl
    (fun st i => processBlock st ((ws.drop (16 * i)).take 16)) shaInit

/-- Split a 32-bit word into its four big-endian bytes. -/
def wordBytes (w : Nat) : List Nat :=
  [(w >>> 24) % 256, (w >>> 16) % 256, (w >>> 8) % 256, w % 256]

/-- The 32-byte SHA-256 digest of a byte message. -/
def sha256Bytes (msg : List Nat) : List Nat :=
  let s := sha256State msg
  ([s.a, s.b, s.c, s.d, s.e, s.f, s.g, s.h].map wordBytes).flatten

/-- UTF-8 encoding of one character, as Python `str.encode()` produces it. -/
def utf8Bytes (c : Char) : List Nat :=
  let n := c.toNat
  if n < 128 then [n]
  else if n < 2048 then [192 + n / 64, 128 + n % 64]
  else if n < 65536 then [224 + n / 4096, 128 + (n / 64) % 64, 128 + n % 64]
  else [240 + n / 262144, 128 + (n / 4096) % 64, 128 + (n / 64) % 64, 128 + n % 64]

/-- UTF-8 encoding of a string. -/
def strBytes (s : String) : List Nat := (s.data.map utf8Bytes).flatten

/-- Lowercase hex character for a value below 16. -/
def hexChar (d : Nat) : Char := if d < 10 then Char.ofNat (48 + d) else Char.ofNat (87 + d)

/-- Two lowercase hex characters of one byte. -/
def hexByte (b : Nat) : List Char := [hexChar (b / 16), hexChar (b % 16)]

/-- Lowercase hex string of a byte list, as Python `hexdigest()` renders it. -/
def hexdigest (bs : List Nat) : String := String.mk ((bs.map hexByte).flatten)

/-- `hashlib.sha256(s.encode()).hexdigest()`. -/
def sha256Hex (s : String) : String := hexdigest (sha256Bytes (strBytes s))

/-! ## The digest signer and the Apix request parameter sets

`ahkio_apix.py`, `_calculate_digest` (lines 171-177); the inline copy in
`account_edi_format.py`, `_export_finvoice` (lines 137-150); the parameter
sets of `list_invoice_zips` (lines 30-35) and `download` (lines 70-76).
Python dicts preserve insertion order, so a parameter set is an ordered
association list and `list(params.values())` is `List.map Prod.snd`. -/

/-- Python `"+".join`. -/
def joinPlus : List String → String
  | [] => ""
  | [s] => s
  | s :: s2 :: rest => s ++ "+" ++ joinPlus (s2 :: rest)

/-- The exact string fed to SHA-256: the parameter values and the shared
secret joined by `+` in order. -/
def digest_input (values : List String) (key : String) : String :=
  joinPlus (values ++ [key])

/-- Embeds `_calculate_digest` from `ahkio_apix.py`: append the key to the
ordered parameter values, join with `+`, SHA-256, hex, prefix `SHA-256:`. -/
def calculate_digest (params : List (String × String)) (key : String) : String :=
  let digest_params := params.map Prod.snd ++ [key]
  let digest := joinPlus digest_params
  "SHA-256:" ++ sha256Hex digest

/-- The digest formula in the spec's words (section 4.2 / section 6), for the
refinement comparison with `calculate_digest`. -/
def computeDigest (orderedValues : List String) (sharedSecret : String) : String :=
  "SHA-256:" ++ sha256Hex (joinPlus (orderedValues ++ [sharedSecret]))

/-- The parameter set of the upload call in `_export_finvoice`
(lines 137-150): `{soft, ver, TraID, t}` plus the digest entry `d`. -/
def upload_params (traId t key : String) : List (String × String) :=
  let params := [("soft", "Ahkio"), ("ver", "2.0"), ("TraID", traId), ("t", t)]
  params ++ [("d", calculate_digest params key)]

/-- The parameter set of `list_invoice_zips` (lines 30-35):
`{TraID, t}` plus the digest entry `d`. -/
def list_params (traId t key : String) : List (String × String) :=
  let params := [("TraID", traId), ("t", t)]
  params ++ [("d", calculate_digest params key)]

/-- The parameter set of `download` (lines 70-76): `{markreceived, SID, t}`
plus the digest entry `d`, signed with the file's storage key. -/
def download_params (sid t storageKey : String) : List (String × String) :=
  let params := [("markreceived", "yes"), ("SID", sid), ("t", t)]
  params ++ [("d", calculate_digest params storageKey)]

/-! ### Facts about string joining and the SHA-256 output shape -/

theorem str_data_append (s t : String) : (s ++ t).data = s.data ++ t.data := rfl

theorem str_append_cancel_left {s t t' : String} (h : s ++ t = s ++ t') : t = t' := by
  apply String.ext
  have h2 := congrArg String.data h
  rw [str_data_append, str_data_append] at h2
  exact List.append_cancel_left h2

theorem str_append_cancel_right {s s' t : String} (h : s ++ t = s' ++ t) : s = s' := by
  apply String.ext
  have h2 := congrArg String.data h
  rw [str_data_append, str_data_append] at h2
  exact List.append_cancel_right h2

theorem joinPlus_cons {a : String} {l : List String} (h : l ≠ []) :
    joinPlus (a :: l) = a ++ "+" ++ joinPlus l := by
  cases l with
  | nil => exact absurd rfl h
  | cons b t => rfl

/-- Changing one value of the joined sequence changes the joined string. -/
theorem digest_input_value_change (pre suf : List String) (x x' key : String) (hx : x ≠ x') :
    digest_input (pre ++ x :: suf) key ≠ digest_input (pre ++ x' :: suf) key := by
  induction pre with
  | nil =>
    intro h
    unfold digest_input at h
    rw [List.nil_append, List.nil_append, List.cons_append, List.cons_append,
      joinPlus_cons (by simp), joinPlus_cons (by simp)] at h
    rw [String.append_assoc, String.append_assoc] at h
    exact hx (str_append_cancel_right h)
  | cons p ps ih =>
    intro h
    unfold digest_input at h
    rw [List.cons_append, List.cons_append, List.cons_append, List.cons_append,
      joinPlus_cons (by simp), joinPlus_cons (by simp)] at h
    rw [String.append_assoc, String.append_assoc] at h
    exact ih (str_append_cancel_left (str_append_cancel_left h))

/-- Changing the shared secret changes the joined string. -/
theorem digest_input_key_change (vs : List String) (k k' : String) (hk : k ≠ k') :
    digest_input vs k ≠ digest_input vs k' := by
  induction vs with
  | nil => exact hk
  | cons a l ih =>
    intro h
    unfold digest_input at h ih
    rw [List.cons_append, List.cons_append, joinPlus_cons (by simp),
      joinPlus_cons (by simp), String.append_assoc, String.append_assoc] at h
    exact ih (str_append_cancel_left (str_append_cancel_left h))

theorem mem_wordBytes_lt {b w : Nat} (h : b ∈ wordBytes w) : b < 256 := by
  simp [wordBytes] at h
  rcases h with h | h | h | h <;> subst h <;> omega

theorem sha256Bytes_length (msg : List Nat) : (sha256Bytes msg).length = 32 := by
  simp [sha256Bytes, wordBytes]

theorem sha256Bytes_lt (msg : List Nat) : ∀ b ∈ sha256Bytes msg, b < 256 := by
  intro b hb
  simp only [sha256Bytes, List.mem_flatten, List.mem_map] at hb
  obtain ⟨l, ⟨w, _, hw⟩, hbl⟩ := hb
  exact mem_wordBytes_lt (hw ▸ hbl)

/-- Base-256 value of a little-endian byte list. -/
def bytesToNat : List Nat → Nat
  | [] => 0
  | b :: t => b + 256 * bytesToNat t

theorem bytesToNat_lt : ∀ (l : List Nat), (∀ b ∈ l, b < 256) → bytesToNat l < 256 ^ l.length := by
  intro l
  induction l with
  | nil => intro _; simp [bytesToNat]
  | cons b t ih =>
    intro h
    have hb : b < 256 := h b (List.mem_cons_self b t)
    have ht : bytesToNat t < 256 ^ t.length := ih fun x hx => h x (List.mem_cons_of_mem b hx)
    simp only [bytesToNat, List.length_cons, pow_succ]
    have h256 : (256 : Nat) ^ t.length * 256 = 256 * 256 ^ t.length := by ring
    rw [h256]
    omega

theorem bytesToNat_injective : ∀ (l₁ l₂ : List Nat), l₁.length = l₂.length →
    (∀ b ∈ l₁, b < 256) → (∀ b ∈ l₂, b < 256) →
    bytesToNat l₁ = bytesToNat l₂ → l₁ = l₂ := by
  intro l₁
  induction l₁ with
  | nil =>
    intro l₂ hl _ _ _
    exact (List.length_eq_zero.1 hl.symm).symm
  | cons b t ih =>
    intro l₂ hl h1 h2 hv
    cases l₂ with
    | nil => simp at hl
    | cons c u =>
      have hb : b < 256 := h1 b (List.mem_cons_self b t)
      have hc : c < 256 := h2 c (List.mem_cons_self c u)
      simp only [bytesToNat] at hv
      have hbc : b = c ∧ bytesToNat t = bytesToNat u := by omega
      have ht : t = u := by
        refine ih u (by simpa using hl) (fun x hx => h1 x (List.mem_cons_of_mem b hx))
          (fun x hx => h2 x (List.mem_cons_of_mem c hx)) hbc.2
      rw [hbc.1, ht]

theorem no_injective_bounded (f : ℕ → ℕ) (N : ℕ) (hb : ∀ n, f n < N)
    (hi : Function.Injective f) : False := by
  have h1 : ∀ a ∈ Finset.range (N + 1), f a ∈ Finset.range N :=
    fun a _ => Finset.mem_range.2 (hb a)
  have h2 := Finset.card_le_card_of_injOn f h1 hi.injOn
  simp [Finset.card_range] at h2

/-- C2, counterexample: the conjunct "changing the secret changes the digest"
is false for the digest as computed by `calculate_digest`: SHA-256 has at most
`256 ^ 32` distinct outputs, so by pigeonhole two distinct secrets (over the
same parameter values) must share a digest. -/
theorem calculate_digest_secret_change_not_injective :
    ¬ ∀ (params : List (String × String)) (k k' : String),
        k ≠ k' → calculate_digest params k ≠ calculate_digest params k' := by
  intro H
  refine no_injective_bounded
    (fun n => bytesToNat (sha256Bytes (strBytes (String.mk (List.replicate n 'a')))))
    (256 ^ 32) (fun n => ?_) ?_
  · have h := bytesToNat_lt _ (sha256Bytes_lt (strBytes (String.mk (List.replicate n 'a'))))
    rwa [sha256Bytes_length] at h
  · intro m n hmn
    by_contra hne
    have hs : String.mk (List.replicate m 'a') ≠ String.mk (List.replicate n 'a') := by
      intro h
      apply hne
      have := congrArg String.data h
      simp only [String.data] at this
      have hlen := congrArg List.length this
      simpa [List.length_replicate] using hlen
    have hbytes : sha256Bytes (strBytes (String.mk (List.replicate m 'a'))) =
        sha256Bytes (strBytes (String.mk (List.replicate n 'a'))) := by
      refine bytesToNat_injective _ _ ?_ (sha256Bytes_lt _) (sha256Bytes_lt _) hmn
      rw [sha256Bytes_length, sha256Bytes_length]
    have hdig : calculate_digest [] (String.mk (List.replicate m 'a')) =
        calculate_digest [] (String.mk (List.replicate n 'a')) := by
      simp only [calculate_digest, joinPlus, List.map_nil, List.nil_append, sha256Hex]
      rw [hbytes]
    exact H [] _ _ hs hdig

/-- C2, amended: the digest parameter `d` equals `SHA-256:` followed by the
lowercase hex SHA-256 of the parameter values and the secret joined by `+` in
declared order; the computation is deterministic (it depends only on the
ordered values and the secret); and changing any single value or the secret
changes the string fed to SHA-256 (so the digest changes unless the two
distinct inputs form a SHA-256 collision). -/
theorem calculate_digest_spec :
    (∀ (traId t key : String),
      (upload_params traId t key).lookup "d" =
        some (computeDigest ["Ahkio", "2.0", traId, t] key))
    ∧ (∀ (traId t key : String),
      (list_params traId t key).lookup "d" =
        some (computeDigest [traId, t] key))
    ∧ (∀ (params : List (String × String)) (key : String),
        calculate_digest params key = computeDigest (params.map Prod.snd) key)
    ∧ (∀ (p q : List (String × String)) (key : String),
        p.map Prod.snd = q.map Prod.snd → calculate_digest p key = calculate_digest q key)
    ∧ (∀ (pre suf : List String) (x x' key : String), x ≠ x' →
        digest_input (pre ++ x :: suf) key ≠ digest_input (pre ++ x' :: suf) key)
    ∧ (∀ (vs : List String) (k k' : String), k ≠ k' →
        digest_input vs k ≠ digest_input vs k') := by
  refine ⟨?_, ?_, ?_, ?_, digest_input_value_change, digest_input_key_change⟩
  · intro traId t key
    simp [upload_params, List.lookup, calculate_digest, computeDigest]
  · intro traId t key
    simp [list_params, List.lookup, calculate_digest, computeDigest]
  · intro params key
    simp [calculate_digest, computeDigest]
  · intro p q key h
    simp [calculate_digest, h]

/-- C2, witness: the change-sensitivity conjuncts of `calculate_digest_spec`
applied at concrete inputs. -/
theorem calculate_digest_spec_witness :
    ((["x", "a", "y"] : List String) = ["x"] ++ "a" :: ["y"])
    ∧ ("a" : String) ≠ "b"
    ∧ digest_input (["x"] ++ "a" :: ["y"]) "k" ≠ digest_input (["x"] ++ "b" :: ["y"]) "k"
    ∧ ("k1" : String) ≠ "k2"
    ∧ digest_input ["v"] "k1" ≠ digest_input ["v"] "k2"
    ∧ ([("TraID", "id1"), ("t", "20240101")].map Prod.snd =
        [("TraID", "id1"), ("t", "20240101")].map Prod.snd)
    ∧ calculate_digest [("TraID", "id1"), ("t", "20240101")] "sec" =
        calculate_digest [("TraID", "id1"), ("t", "20240101")] "sec" :=
  ⟨rfl, by decide, calculate_digest_spec.2.2.2.2.1 ["x"] ["y"] "a" "b" "k" (by decide),
   by decide, calculate_digest_spec.2.2.2.2.2 ["v"] "k1" "k2" (by decide),
   rfl, calculate_digest_spec.2.2.2.1 _ _ "sec" rfl⟩

/-! ## The invoice data model

The fields of `res.partner`, `res.company` and `account.move` that the
export and import paths read (`res_partner.py`, `res_company.py`, and the
accesses in `account_edi_format.py`).  Python string truthiness is modelled
by emptiness, a missing/falsy shipping contact by `Option`, and monetary
amounts by an arbitrary commutative ring with a division (instantiated at
`Int` or `Rat`); the tax engine `compute_all` is an external collaborator
passed in as a function. -/

/-- A partner record: the identity and banking fields the module reads. -/
structure Partner where
  ahkio_company_registry : String
  ahkio_organisation_unit_number : String
  ahkio_e_invoice_address : String
  ahkio_e_invoice_intermediator : String
  bank_ids : List String
deriving DecidableEq

/-- A company record with its Apix transfer credentials and its partner. -/
structure Company where
  company_registry : String
  ahkio_apix_transfer_id : String
  ahkio_apix_transfer_key : String
  partner_id : Partner
  display_name : String
deriving DecidableEq

/-- One per-tax result of the external tax engine `compute_all`. -/
structure TaxRes (α : Type) where
  id : Nat
  amount : α
  base : α
deriving DecidableEq

/-- The result of the external tax engine for one invoice line. -/
structure TaxesRes (α : Type) where
  total_excluded : α
  taxes : List (TaxRes α)
deriving DecidableEq

/-- An invoice line as read by the export loop (lines 93-122). -/
structure InvoiceLine (α : Type) where
  display_type : Bool
  price_unit : α
  discount : α
  quantity : α
deriving DecidableEq

/-- A ledger line of the move; `tax_line_id` is truthy exactly on tax lines
(line 86-90). -/
structure MoveTaxLine (α : Type) where
  tax_line_id : Option Nat
  has_currency : Bool
  amount_currency : α
  balance : α
deriving DecidableEq

/-- The invoice aggregate handed to `_export_finvoice`. -/
structure Invoice (α : Type) where
  name : String
  company_id : Company
  commercial_partner_id : Partner
  partner_shipping_id : Option Partner
  line_ids : List (MoveTaxLine α)
  invoice_line_ids : List (InvoiceLine α)
deriving DecidableEq

/-! ## Export validation (`_validate_required_fields`, lines 346-372) -/

/-- Embeds `_validate_required_fields`: the thirteen checks in source order,
each raising `FinvoiceGenerationException` with its message. -/
def validate_required_fields {α : Type} (inv : Invoice α) : Except String Unit :=
  if inv.company_id.company_registry == "" then
    .error "Company registry (y-tunnus) missing from sender."
  else if inv.commercial_partner_id.ahkio_company_registry == "" then
    .error "Company registry (y-tunnus) missing from recipient."
  else if (match inv.partner_shipping_id with
           | some p => p.ahkio_company_registry == ""
           | none => false) then
    .error "Company registry (y-tunnus) missing from shipping contact."
  else if inv.company_id.partner_id.bank_ids == [] then
    .error "No bank accounts configured for sender."
  else if inv.company_id.ahkio_apix_transfer_id == "" then
    .error "Apix transfer id missing from company config."
  else if inv.company_id.ahkio_apix_transfer_key == "" then
    .error "Apix transfer key missing from company config."
  else if inv.company_id.partner_id.ahkio_organisation_unit_number == "" then
    .error "Organisation unit number (OVT) missing from sender."
  else if inv.commercial_partner_id.ahkio_organisation_unit_number == "" then
    .error "Organisation unit number (OVT) missing from recipient."
  else if (match inv.partner_shipping_id with
           | some p => p.ahkio_organisation_unit_number == ""
           | none => false) then
    .error "Organisation unit number (OVT) missing from shipping contact."
  else if inv.company_id.partner_id.ahkio_e_invoice_address == "" then
    .error "E-invoice address missing from sender."
  else if inv.commercial_partner_id.ahkio_e_invoice_address == "" then
    .error "E-invoice address missing from recipient."
  else if inv.company_id.partner_id.ahkio_e_invoice_intermediator == "" then
    .error "E-invoice intermediator missing from sender."
  else if inv.commercial_partner_id.ahkio_e_invoice_intermediator == "" then
    .error "E-invoice intermediator missing from recipient."
  else .ok ()

/-- The fixed check order of the claim: each mandatory-field condition
(`true` = missing) paired with the error message naming the field, in the
order the source tests them. -/
def required_field_checks {α : Type} (inv : Invoice α) : List (Bool × String) :=
  [(inv.company_id.company_registry == "",
    "Company registry (y-tunnus) missing from sender."),
   (inv.commercial_partner_id.ahkio_company_registry == "",
    "Company registry (y-tunnus) missing from recipient."),
   ((match inv.partner_shipping_id with
     | some p => p.ahkio_company_registry == ""
     | none => false),
    "Company registry (y-tunnus) missing from shipping contact."),
   (inv.company_id.partner_id.bank_ids == [],
    "No bank accounts configured for sender."),
   (inv.company_id.ahkio_apix_transfer_id == "",
    "Apix transfer id missing from company config."),
   (inv.company_id.ahkio_apix_transfer_key == "",
    "Apix transfer key missing from company config."),
   (inv.company_id.partner_id.ahkio_organisation_unit_number == "",
    "Organisation unit number (OVT) missing from sender."),
   (inv.commercial_partner_id.ahkio_organisation_unit_number == "",
    "Organisation unit number (OVT) missing from recipient."),
   ((match inv.partner_shipping_id with
     | some p => p.ahkio_organisation_unit_number == ""
     | none => false),
    "Organisation unit number (OVT) missing from shipping contact."),
   (inv.company_id.partner_id.ahkio_e_invoice_address == "",
    "E-invoice address missing from sender."),
   (inv.commercial_partner_id.ahkio_e_invoice_address == "",
    "E-invoice address missing from recipient."),
   (inv.company_id.partner_id.ahkio_e_invoice_intermediator == "",
    "E-invoice intermediator missing from sender."),
   (inv.commercial_partner_id.ahkio_e_invoice_intermediator == "",
    "E-invoice intermediator missing from recipient.")]

/-! ## Tax aggregation (`_export_finvoice`, lines 85-124) -/

/-- One value of the `aggregated_taxes_details` dict: key, the tax amount
taken from the move's tax line, and the accumulated base. -/
structure AggEntry (α : Type) where
  tax_id : Nat
  tax_amount : α
  tax_base_amount : α
deriving DecidableEq

/-- Python dict insertion: replace in place if the key exists, else append. -/
def dictSet {α : Type} (d : List (AggEntry α)) (k : Nat) (v : AggEntry α) :
    List (AggEntry α) :=
  if d.any (fun e => e.tax_id == k) then d.map (fun e => if e.tax_id == k then v else e)
  else d ++ [v]

/-- `-line.amount_currency if line.currency_id else -line.balance` (line 88). -/
def taxLineAmount {α : Type} [Neg α] (l : MoveTaxLine α) : α :=
  if l.has_currency then -l.amount_currency else -l.balance

/-- The dict comprehension of lines 86-90: one entry per tax line of
`invoice.line_ids`, keyed by `tax_line_id.id`, base initialised to zero. -/
def aggregated_taxes_details_init {α : Type} [Neg α] [Zero α] (inv : Invoice α) :
    List (AggEntry α) :=
  inv.line_ids.foldl
    (fun d l =>
      match l.tax_line_id with
      | none => d
      | some tid => dictSet d tid ⟨tid, taxLineAmount l, 0⟩)
    []

/-- Lines 119-120: add a per-line base into the aggregated entry of that tax,
when the tax has an entry; otherwise a no-op. -/
def aggAdd {α : Type} [Add α] (d : List (AggEntry α)) (tid : Nat) (b : α) :
    List (AggEntry α) :=
  d.map (fun e => if e.tax_id == tid then { e with tax_base_amount := e.tax_base_amount + b } else e)

/-- Embeds the tax-aggregation effect of lines 85-124: seed the dict from the
move's tax lines, iterate the non-display invoice lines in order, feed the
discounted unit price to the tax engine, and accumulate each reported base
into the entry of its tax. -/
def aggregated_tax_details {α : Type} [CommRing α] [Div α] (inv : Invoice α)
    (computeAll : α → InvoiceLine α → TaxesRes α) : List (AggEntry α) :=
  (inv.invoice_line_ids.filter (fun l => !l.display_type)).foldl
    (fun d line =>
      ((computeAll (line.price_unit * (1 - line.discount / 100)) line).taxes).foldl
        (fun d tr => aggAdd d tr.id tr.base) d)
    (aggregated_taxes_details_init inv)

/-! ## The export pipeline (`_export_finvoice`, lines 56-175) -/

/-- `invoice.name.replace('/', '_')` (line 126). -/
def invoice_name_safe (name : String) : String :=
  String.mk (name.data.map fun c => if c = '/' then '_' else c)

/-- The observable outcome of one `_export_finvoice` call: whether the HTTP
PUT was reached, the query parameters it would carry, the aggregated tax
details handed to the template, and the result (attachment name or the
message of the raised `FinvoiceGenerationException`). -/
instance {ε β : Type} [DecidableEq ε] [DecidableEq β] : DecidableEq (Except ε β) := fun a b =>
  match a, b with
  | .error e, .error e' =>
    if h : e = e' then isTrue (by rw [h]) else isFalse (by intro hc; cases hc; exact h rfl)
  | .ok v, .ok v' =>
    if h : v = v' then isTrue (by rw [h]) else isFalse (by intro hc; cases hc; exact h rfl)
  | .error _, .ok _ => isFalse (by intro hc; cases hc)
  | .ok _, .error _ => isFalse (by intro hc; cases hc)

structure ExportOutcome (α : Type) where
  networkCalled : Bool
  sentParams : List (String × String)
  tax_details : List (AggEntry α)
  result : Except String String
deriving DecidableEq

/-- Embeds `_export_finvoice`: validation first; only when every check passes
are the tax details built, the parameters signed and the PUT issued; a
non-`OK` response envelope raises with the raw response text. -/
def export_finvoice {α : Type} [CommRing α] [Div α] (inv : Invoice α)
    (computeAll : α → InvoiceLine α → TaxesRes α)
    (t response_status response_text : String) : ExportOutcome α :=
  match validate_required_fields inv with
  | .error e =>
    { networkCalled := false, sentParams := [], tax_details := [], result := .error e }
  | .ok _ =>
    { networkCalled := true,
      sentParams := upload_params inv.company_id.ahkio_apix_transfer_id t
        inv.company_id.ahkio_apix_transfer_key,
      tax_details := aggregated_tax_details inv computeAll,
      result :=
        if response_status == "OK" then .ok (invoice_name_safe inv.name)
        else .error response_text }

set_option maxHeartbeats 1600000 in
theorem validate_eq_first_failed_check {α : Type} (inv : Invoice α) :
    validate_required_fields inv =
      (match (required_field_checks inv).find? (fun c => c.1) with
       | some c => .error c.2
       | none => .ok ()) := by
  simp only [validate_required_fields, required_field_checks]
  cases h1 : inv.company_id.company_registry == "" with
  | true => simp [List.find?, h1]
  | false =>
  cases h2 : inv.commercial_partner_id.ahkio_company_registry == "" with
  | true => simp [List.find?, h1, h2]
  | false =>
  cases h3 : (match inv.partner_shipping_id with
              | some p => p.ahkio_company_registry == ""
              | none => false) with
  | true => simp [List.find?, h1, h2, h3]
  | false =>
  cases h4 : inv.company_id.partner_id.bank_ids == [] with
  | true => simp [List.find?, h1, h2, h3, h4]
  | false =>
  cases h5 : inv.company_id.ahkio_apix_transfer_id == "" with
  | true => simp [List.find?, h1, h2, h3, h4, h5]
  | false =>
  cases h6 : inv.company_id.ahkio_apix_transfer_key == "" with
  | true => simp [List.find?, h1, h2, h3, h4, h5, h6]
  | false =>
  cases h7 : inv.company_id.partner_id.ahkio_organisation_unit_number == "" with
  | true => simp [List.find?, h1, h2, h3, h4, h5, h6, h7]
  | false =>
  cases h8 : inv.commercial_partner_id.ahkio_organisation_unit_number == "" with
  | true => simp [List.find?, h1, h2, h3, h4, h5, h6, h7, h8]
  | false =>
  cases h9 : (match inv.partner_shipping_id with
              | some p => p.ahkio_organisation_unit_number == ""
              | none => false) with
  | true => simp [List.find?, h1, h2, h3, h4, h5, h6, h7, h8, h9]
  | false =>
  cases h10 : inv.company_id.partner_id.ahkio_e_invoice_address == "" with
  | true => simp [List.find?, h1, h2, h3, h4, h5, h6, h7, h8, h9, h10]
  | false =>
  cases h11 : inv.commercial_partner_id.ahkio_e_invoice_address == "" with
  | true => simp [List.find?, h1, h2, h3, h4, h5, h6, h7, h8, h9, h10, h11]
  | false =>
  cases h12 : inv.company_id.partner_id.ahkio_e_invoice_intermediator == "" with
  | true => simp [List.find?, h1, h2, h3, h4, h5, h6, h7, h8, h9, h10, h11, h12]
  | false =>
  cases h13 : inv.commercial_partner_id.ahkio_e_invoice_intermediator == "" with
  | true => simp [List.find?, h1, h2, h3, h4, h5, h6, h7, h8, h9, h10, h11, h12, h13]
  | false => simp [List.find?, h1, h2, h3, h4, h5, h6, h7, h8, h9, h10, h11, h12, h13]

/-- C1: an invoice missing at least one mandatory field makes export fail
with the error naming the first missing field in the fixed check order, and
the network call is never attempted. -/
theorem export_validation_fail_fast {α : Type} [CommRing α] [Div α]
    (inv : Invoice α) (computeAll : α → InvoiceLine α → TaxesRes α)
    (t rs rt : String)
    (hmiss : (required_field_checks inv).any (fun c => c.1) = true) :
    ∃ c, (required_field_checks inv).find? (fun c => c.1) = some c
      ∧ export_finvoice inv computeAll t rs rt =
          { networkCalled := false, sentParams := [], tax_details := [],
            result := .error c.2 } := by
  have hveq := validate_eq_first_failed_check inv
  cases hf : (required_field_checks inv).find? (fun c => c.1) with
  | none =>
    rw [List.find?_eq_none] at hf
    rw [List.any_eq_true] at hmiss
    obtain ⟨x, hx, hpx⟩ := hmiss
    exact absurd hpx (by simpa using hf x hx)
  | some c =>
    refine ⟨c, rfl, ?_⟩
    rw [hf] at hveq
    simp [export_finvoice, hveq]

/-- A fully configured sample partner, for concrete evaluations. -/
def samplePartner : Partner :=
  { ahkio_company_registry := "1234567-8",
    ahkio_organisation_unit_number := "003712345678",
    ahkio_e_invoice_address := "003712345678",
    ahkio_e_invoice_intermediator := "003723327487",
    bank_ids := ["FI2112345600000785"] }

/-- A fully configured sample company. -/
def sampleCompany : Company :=
  { company_registry := "7654321-1",
    ahkio_apix_transfer_id := "TID123",
    ahkio_apix_transfer_key := "TKEY456",
    partner_id := samplePartner,
    display_name := "Sender Oy" }

/-- An invoice whose recipient company registry is missing, so the second
check of the fixed order is the first to fail. -/
def sampleInvalidInvoice : Invoice Int :=
  { name := "INV/2024/001",
    company_id := sampleCompany,
    commercial_partner_id := { samplePartner with ahkio_company_registry := "" },
    partner_shipping_id := none,
    line_ids := [],
    invoice_line_ids := [] }

/-- C1, witness: `export_validation_fail_fast` applied to a concrete invoice
missing the recipient registry. -/
theorem export_validation_fail_fast_witness :
    ((required_field_checks sampleInvalidInvoice).any (fun c => c.1) = true)
    ∧ ∃ c, (required_field_checks sampleInvalidInvoice).find? (fun c => c.1) = some c
        ∧ export_finvoice sampleInvalidInvoice (fun _ _ => ⟨0, []⟩) "20240101000000" "OK" "" =
            { networkCalled := false, sentParams := [], tax_details := [],
              result := .error c.2 } :=
  ⟨by decide,
   export_validation_fail_fast sampleInvalidInvoice (fun _ _ => ⟨0, []⟩)
     "20240101000000" "OK" "" (by decide)⟩

/-! ## The Apix list operation (`list_invoice_zips`, lines 21-49)

The parsed response envelope is modelled as its status text and the
`/Response/Content/Group` elements, each a list of `Value` elements carrying
a `type` attribute and a text.  On a non-`OK` status the source executes
`raise response.text`: in Python 3 raising a non-exception value raises
`TypeError("exceptions must derive from BaseException")`, so the call fails
but the raw response body is not carried by the raised error. -/

/-- A `Value` element of the list response: its `type` attribute and text. -/
structure ApixValue where
  typeAttr : String
  text : String
deriving DecidableEq

/-- A `/Response/Content/Group` element. -/
structure ApixGroup where
  values : List ApixValue
deriving DecidableEq

/-- The parsed list2 response envelope plus the raw body text. -/
structure ApixListResponse where
  status : String
  groups : List ApixGroup
  text : String
deriving DecidableEq

/-- What a failed Python `raise` surfaces to the caller. -/
inductive PyRaised where
  | typeError (msg : String)
deriving DecidableEq

/-- Python dict insertion for string keys: replace in place or append. -/
def dictInsertStr (d : List (String × String)) (k v : String) : List (String × String) :=
  if d.any (fun p => p.1 == k) then d.map (fun p => if p.1 == k then (k, v) else p)
  else d ++ [(k, v)]

/-- Embeds `extract_content_from_group` (lines 22-28): one dict entry per
child `Value`, keyed by its `type` attribute. -/
def extract_content_from_group (group : ApixGroup) : List (String × String) :=
  group.values.foldl (fun file v => dictInsertStr file v.typeAttr v.text) []

/-- Embeds the response handling of `list_invoice_zips` (lines 39-49): a
non-`OK` status executes `raise response.text`, which raises a `TypeError`
(the body string is not an exception), else one descriptor per Group. -/
def list_invoice_zips (response : ApixListResponse) :
    Except PyRaised (List (List (String × String))) :=
  if response.status != "OK" then
    .error (.typeError "exceptions must derive from BaseException")
  else
    .ok (response.groups.map extract_content_from_group)

/-- C4: on a non-`OK` envelope the list operation does fail, but the raised
error is the `TypeError` of raising a bare string - two responses with
different bodies raise identically, so the raw body is not surfaced; on an
`OK` envelope each Group yields one descriptor keyed by the Value type
attributes. -/
theorem list_invoice_zips_envelope :
    list_invoice_zips
        ⟨"FAIL", [],
         "<Response><Status>FAIL</Status><FreeText>quota exceeded</FreeText></Response>"⟩
      = .error (.typeError "exceptions must derive from BaseException")
    ∧ list_invoice_zips ⟨"FAIL", [], "body-one"⟩ = list_invoice_zips ⟨"FAIL", [], "body-two"⟩
    ∧ list_invoice_zips
        ⟨"OK",
         [⟨[⟨"StorageID", "1001"⟩, ⟨"StorageStatus", "UNRECEIVED"⟩]⟩,
          ⟨[⟨"StorageID", "1002"⟩]⟩],
         "raw"⟩
      = .ok [[("StorageID", "1001"), ("StorageStatus", "UNRECEIVED")],
             [("StorageID", "1002")]] := by
  refine ⟨by decide, by decide, by decide⟩

/-! ## The Apix download operation (`download`, lines 51-146) -/

/-- A file descriptor from `list_invoice_zips`, with the fields `download`
reads. -/
structure ApixFile where
  StorageID : String
  StorageKey : String
  StorageStatus : String
  DocumentID : String
  DocumentName : String
deriving DecidableEq

/-- The observable outcome of a `download` call up to the attachment
creation: whether the HTTP GET was reached, its parameters, whether a record
was created, and the returned value (`none` models the empty recordset). -/
structure DownloadOutcome where
  httpCalled : Bool
  requestParams : List (String × String)
  attachmentCreated : Bool
  result : Option String
deriving DecidableEq

/-- Embeds the guard structure of `download` (lines 51-90): skip `NEW` files,
skip files not matching a truthy requested status filter, skip files whose
derived attachment name already exists; otherwise sign and GET.  `existing`
is the collaborator attachment-store lookup by name. -/
def download (file : ApixFile) (storage_status : String) (existing : String → Bool)
    (t : String) : DownloadOutcome :=
  if file.StorageStatus == "NEW" then ⟨false, [], false, none⟩
  else if storage_status != "" && file.StorageStatus != storage_status then
    ⟨false, [], false, none⟩
  else
    let filename := "apix_in_invoice_" ++ file.StorageID
    if existing (filename ++ ".zip") then ⟨false, [], false, none⟩
    else ⟨true, download_params file.StorageID t file.StorageKey, true, some filename⟩

/-- C5: a `NEW` storage status, a mismatch with a requested (non-empty)
status filter, or an already existing attachment under the name derived from
the StorageID each make `download` a silent no-op: no HTTP request, no record,
an empty result, and no error. -/
theorem download_skip_cases (file : ApixFile) (storage_status : String)
    (existing : String → Bool) (t : String) :
    (file.StorageStatus = "NEW" →
      download file storage_status existing t = ⟨false, [], false, none⟩)
    ∧ (storage_status ≠ "" → file.StorageStatus ≠ storage_status →
      download file storage_status existing t = ⟨false, [], false, none⟩)
    ∧ (existing ("apix_in_invoice_" ++ file.StorageID ++ ".zip") = true →
      download file storage_status existing t = ⟨false, [], false, none⟩) := by
  refine ⟨fun h1 => ?_, fun h2 h3 => ?_, fun h4 => ?_⟩
  · simp [download, h1]
  · rcases hnew : file.StorageStatus == "NEW" with _ | _ <;>
      simp_all [download, bne_iff_ne]
  · rcases hnew : file.StorageStatus == "NEW" with _ | _ <;>
      rcases hflt : storage_status != "" && file.StorageStatus != storage_status
        with _ | _ <;>
      simp_all [download, String.append_assoc]

/-- C5, witness: the three skip conditions of `download_skip_cases` at
concrete file descriptors. -/
theorem download_skip_cases_witness :
    download ⟨"11", "k1", "NEW", "d1", "doc1.xml"⟩ "UNRECEIVED" (fun _ => false) "t"
      = ⟨false, [], false, none⟩
    ∧ download ⟨"22", "k2", "RECEIVED", "d2", "doc2.xml"⟩ "UNRECEIVED" (fun _ => false) "t"
      = ⟨false, [], false, none⟩
    ∧ download ⟨"33", "k3", "UNRECEIVED", "d3", "doc3.xml"⟩ "UNRECEIVED"
        (fun s => s == "apix_in_invoice_33.zip") "t"
      = ⟨false, [], false, none⟩ :=
  ⟨(download_skip_cases ⟨"11", "k1", "NEW", "d1", "doc1.xml"⟩ "UNRECEIVED"
      (fun _ => false) "t").1 rfl,
   (download_skip_cases ⟨"22", "k2", "RECEIVED", "d2", "doc2.xml"⟩ "UNRECEIVED"
      (fun _ => false) "t").2.1 (by decide) (by decide),
   (download_skip_cases ⟨"33", "k3", "UNRECEIVED", "d3", "doc3.xml"⟩ "UNRECEIVED"
      (fun s => s == "apix_in_invoice_33.zip") "t").2.2 (by decide)⟩

/-! ## Import currency handling (`_import_finvoice`, lines 277-286)

`env.ref('base.' + code.upper(), raise_if_not_found=False)` returns the
currency record or Python `None`; comparing `None` to a record with `!=` is
true, after which `None.active` raises `AttributeError`.  The collaborator
lookup is `envRef`. -/

/-- A currency record: its identity and active flag. -/
structure Currency where
  code : String
  active : Bool
deriving DecidableEq

/-- The Python exception the currency block can raise. -/
inductive ImportFailure where
  | attributeErrorNoneActive
deriving DecidableEq

/-- ASCII uppercase of one character, as Python `str.upper()` maps ASCII. -/
def charUpper (c : Char) : Char :=
  if 97 ≤ c.toNat ∧ c.toNat ≤ 122 then Char.ofNat (c.toNat - 32) else c

/-- Python `str.upper()` restricted to ASCII, which covers currency codes. -/
def pyUpper (s : String) : String := String.mk (s.data.map charUpper)

/-- Embeds lines 277-286: when the total amount carries a truthy
`AmountCurrencyIdentifier`, look the currency up; a found currency overrides
the default only when it differs from it and is active; a failed lookup
yields `None`, for which `None != default` is true and `None.active` raises
`AttributeError`. -/
def import_currency (amountCurrencyIdentifier : Option String)
    (envRef : String → Option Currency) (defaultCurrency : Currency) :
    Except ImportFailure Currency :=
  match amountCurrencyIdentifier with
  | none => .ok defaultCurrency
  | some s =>
    if s == "" then .ok defaultCurrency
    else
      match envRef (pyUpper s) with
      | none => .error .attributeErrorNoneActive
      | some currency =>
        if currency != defaultCurrency && currency.active then .ok currency
        else .ok defaultCurrency

/-- C6: the default currency is kept when the identifier is absent, equals
the default, or names an inactive currency, and is overridden by a different
active currency - but an identifier that resolves to no known currency makes
the import raise `AttributeError` (from `None.active`) instead of keeping the
default, contradicting the claim that the import never fails on that
account. -/
theorem import_currency_behaviour :
    import_currency (some "XAU")
        (fun code => if code == "USD" then some ⟨"USD", true⟩
          else if code == "EUR" then some ⟨"EUR", true⟩
          else if code == "SEK" then some ⟨"SEK", false⟩ else none)
        ⟨"EUR", true⟩
      = .error .attributeErrorNoneActive
    ∧ import_currency none
        (fun code => if code == "USD" then some ⟨"USD", true⟩
          else if code == "EUR" then some ⟨"EUR", true⟩
          else if code == "SEK" then some ⟨"SEK", false⟩ else none)
        ⟨"EUR", true⟩
      = .ok ⟨"EUR", true⟩
    ∧ import_currency (some "eur")
        (fun code => if code == "USD" then some ⟨"USD", true⟩
          else if code == "EUR" then some ⟨"EUR", true⟩
          else if code == "SEK" then some ⟨"SEK", false⟩ else none)
        ⟨"EUR", true⟩
      = .ok ⟨"EUR", true⟩
    ∧ import_currency (some "sek")
        (fun code => if code == "USD" then some ⟨"USD", true⟩
          else if code == "EUR" then some ⟨"EUR", true⟩
          else if code == "SEK" then some ⟨"SEK", false⟩ else none)
        ⟨"EUR", true⟩
      = .ok ⟨"EUR", true⟩
    ∧ import_currency (some "usd")
        (fun code => if code == "USD" then some ⟨"USD", true⟩
          else if code == "EUR" then some ⟨"EUR", true⟩
          else if code == "SEK" then some ⟨"SEK", false⟩ else none)
        ⟨"EUR", true⟩
      = .ok ⟨"USD", true⟩ := by
  refine ⟨by decide, by decide, by decide, by decide, by decide⟩

/-! ## The VAT number formatter (`vat_number_in_finnish_format`, lines 66-69) -/

/-- The Python exception kind of an out-of-range index. -/
inductive PyIndexError where
  | indexError
deriving DecidableEq

/-- Embeds `vat_number_in_finnish_format`: Python `vat[2:-1]` is the slice
from index 2 up to the last-but-one character (possibly empty), `vat[-1]` is
the last character and raises IndexError on an empty string, and the parts
join around a hyphen. -/
def vat_number_in_finnish_format (vat : String) : Except PyIndexError String :=
  let beginning := vat.data.dropLast.drop 2
  match vat.data.getLast? with
  | none => .error .indexError
  | some c => .ok (String.mk (beginning ++ '-' :: [c]))

/-- C8, counterexample: an input of length 2 - below the claimed minimum of
3 - does not fail: the code returns "-B" for "AB". -/
theorem vat_number_short_input_no_failure :
    ("AB" : String).length = 2 ∧ vat_number_in_finnish_format "AB" = .ok "-B" :=
  ⟨by decide, by decide⟩

/-- C8, amended: for every nonempty input the result is the input without its
first two and its last characters, then a hyphen, then the last character (so
inputs of length at least 3 behave exactly as claimed, and inputs of length 1
or 2 yield a hyphen followed by the last character); only the empty input
fails, with IndexError. -/
theorem vat_number_in_finnish_format_spec :
    (∀ (l : List Char) (c : Char),
      vat_number_in_finnish_format (String.mk (l ++ [c])) =
        .ok (String.mk (l.drop 2 ++ '-' :: [c])))
    ∧ vat_number_in_finnish_format "" = .error .indexError := by
  constructor
  · intro l c
    simp [vat_number_in_finnish_format, List.dropLast_concat, List.getLast?_concat]
  · rfl

/-! ## The import company authorization check (`_import_finvoice`, lines 190-213) -/

/-- Embeds lines 205-213: an unresolved company defaults to the caller's
current company; then, unless the caller is superuser, a company differing
from the caller's raises `UserError`. -/
def import_company_check (is_superuser : Bool) (resolved : Option Company)
    (env_company : Company) : Except String Company :=
  let company := match resolved with
    | some c => c
    | none => env_company
  if !is_superuser then
    if env_company != company then
      .error ("You can only import invoices to your company: " ++ env_company.display_name)
    else .ok company
  else .ok company

/-- C10: the import authorization check raises exactly when the caller is not
superuser and the resolved (or defaulted) company differs from the caller's
company; a superuser caller always proceeds, even with a different resolved
company. -/
theorem import_company_check_superuser (su : Bool) (resolved : Option Company)
    (envc : Company) :
    ((∃ e, import_company_check su resolved envc = .error e) ↔
      (su = false ∧ resolved.getD envc ≠ envc))
    ∧ import_company_check true resolved envc = .ok (resolved.getD envc) := by
  constructor
  · cases su with
    | false =>
      cases resolved with
      | none => simp [import_company_check]
      | some c =>
        by_cases h : envc = c <;>
          simp [import_company_check, h, bne_iff_ne, ne_comm]
    | true => cases resolved <;> simp [import_company_check]
  · cases resolved <;> simp [import_company_check, Option.getD]

/-- C9: the parameter sets of the upload and the list calls contain exactly
the declared public parameter names plus `d`; every entry other than `d` is
independent of the transfer key; and `d` carries exactly the digest - so the
shared secret influences the transmitted request only through the SHA-256
digest value and is never itself a transmitted parameter. -/
theorem transfer_key_not_transmitted (traId t k k' : String) :
    (upload_params traId t k).map Prod.fst = ["soft", "ver", "TraID", "t", "d"]
    ∧ (list_params traId t k).map Prod.fst = ["TraID", "t", "d"]
    ∧ (upload_params traId t k).filter (fun p => p.1 != "d")
        = (upload_params traId t k').filter (fun p => p.1 != "d")
    ∧ (list_params traId t k).filter (fun p => p.1 != "d")
        = (list_params traId t k').filter (fun p => p.1 != "d")
    ∧ (upload_params traId t k).lookup "d"
        = some (calculate_digest
            [("soft", "Ahkio"), ("ver", "2.0"), ("TraID", traId), ("t", t)] k)
    ∧ (list_params traId t k).lookup "d"
        = some (calculate_digest [("TraID", traId), ("t", t)] k) := by
  refine ⟨?_, ?_, ?_, ?_, ?_, ?_⟩ <;>
    simp [upload_params, list_params, List.lookup, List.filter]

/-! ## The monetary formatter (`format_monetary`, lines 62-64)

`float_repr(number, currency.decimal_places)` renders a number in fixed-point
notation with exactly the requested number of fractional digits; the module
then replaces the dot by a comma.  Amounts are modelled as exact decimal
values `m / 10 ^ e`; rounding to the requested precision is to nearest, ties
to even, as C fixed-point formatting rounds the exact value. -/

/-- The decimal digit character of a value below ten. -/
def digitChar (d : Nat) : Char := Char.ofNat (48 + d)

/-- Little-endian decimal digit characters, by fuelled structural recursion. -/
def natDigitsAux : Nat → Nat → List Char
  | 0, _ => []
  | fuel + 1, x => if x = 0 then [] else digitChar (x % 10) :: natDigitsAux fuel (x / 10)

/-- Decimal digit characters of a natural number, most significant first. -/
def natStr (x : Nat) : List Char :=
  if x = 0 then [digitChar 0] else (natDigitsAux x x).reverse

/-- `r` (below `10 ^ n`) rendered with leading zeros to exactly `n`
characters. -/
def fracChars (r n : Nat) : List Char :=
  List.replicate (n - (natDigitsAux r r).length) (digitChar 0) ++ (natDigitsAux r r).reverse

/-- Round `num / den` (for positive `den`) to the nearest integer, ties to
even. -/
def roundHalfEvenDiv (num den : Int) : Int :=
  let q := Int.fdiv num den
  let r := num - q * den
  if 2 * r < den then q
  else if den < 2 * r then q + 1
  else if q % 2 = 0 then q else q + 1

/-- The integer value of `m / 10 ^ e` scaled to `n` decimal places. -/
def scaledAmount (m : Int) (e n : Nat) : Int :=
  roundHalfEvenDiv (m * 10 ^ n) (10 ^ e)

/-- Embeds `float_repr(number, decimal_places)` over exact decimal amounts
`m / 10 ^ e`: fixed-point rendering - optional sign, integer digits, then a
dot and exactly `n` fractional digits when `n` is positive; never scientific
notation. -/
def float_repr (m : Int) (e n : Nat) : String :=
  let v := scaledAmount m e n
  let a := v.natAbs
  String.mk ((if v < 0 then ['-'] else []) ++ natStr (a / 10 ^ n)
    ++ (if n = 0 then [] else '.' :: fracChars (a % 10 ^ n) n))

/-- Embeds `format_monetary` (lines 62-64): `float_repr`, then the decimal
separator replaced by a comma. -/
def format_monetary (m : Int) (e n : Nat) : String :=
  String.mk ((float_repr m e n).data.map fun c => if c = '.' then ',' else c)

theorem digitChar_isDigit {d : Nat} (h : d < 10) : (digitChar d).isDigit = true := by
  interval_cases d <;> decide

theorem natDigitsAux_isDigit : ∀ (fuel x : Nat), ∀ c ∈ natDigitsAux fuel x, c.isDigit = true := by
  intro fuel
  induction fuel with
  | zero => intro x c hc; simp [natDigitsAux] at hc
  | succ fuel ih =>
    intro x c hc
    simp only [natDigitsAux] at hc
    by_cases hx : x = 0
    · simp [hx] at hc
    · rw [if_neg hx] at hc
      rcases List.mem_cons.1 hc with h | h
      · exact h ▸ digitChar_isDigit (Nat.mod_lt x (by omega))
      · exact ih (x / 10) c h

theorem natDigitsAux_length_le : ∀ (fuel x n : Nat), x < 10 ^ n →
    (natDigitsAux fuel x).length ≤ n := by
  intro fuel
  induction fuel with
  | zero => intro x n _; simp [natDigitsAux]
  | succ fuel ih =>
    intro x n hx
    simp only [natDigitsAux]
    by_cases hx0 : x = 0
    · simp [hx0]
    · rw [if_neg hx0]
      cases n with
      | zero => simp at hx; omega
      | succ n' =>
        have hdiv : x / 10 < 10 ^ n' := by
          rw [Nat.div_lt_iff_lt_mul (by omega)]
          calc x < 10 ^ (n' + 1) := hx
            _ = 10 ^ n' * 10 := by ring
        simpa using ih (x / 10) n' hdiv

theorem fracChars_length {r n : Nat} (h : r < 10 ^ n) : (fracChars r n).length = n := by
  have hle := natDigitsAux_length_le r r n h
  simp [fracChars]
  omega

theorem fracChars_isDigit (r n : Nat) : ∀ c ∈ fracChars r n, c.isDigit = true := by
  intro c hc
  rcases List.mem_append.1 hc with h | h
  · rw [List.eq_of_mem_replicate h]
    exact digitChar_isDigit (by omega)
  · exact natDigitsAux_isDigit r r c (List.mem_reverse.1 h)

theorem natStr_isDigit (x : Nat) : ∀ c ∈ natStr x, c.isDigit = true := by
  intro c hc
  simp only [natStr] at hc
  by_cases hx : x = 0
  · rw [if_pos hx] at hc
    simp at hc
    exact hc ▸ digitChar_isDigit (by omega)
  · rw [if_neg hx] at hc
    exact natDigitsAux_isDigit x x c (List.mem_reverse.1 hc)

theorem isDigit_not_special {c : Char} (h : c.isDigit = true) :
    c ≠ 'e' ∧ c ≠ 'E' ∧ c ≠ '.' ∧ c ≠ ',' ∧ c ≠ '-' := by
  refine ⟨?_, ?_, ?_, ?_, ?_⟩ <;> rintro rfl <;> exact absurd h (by decide)

theorem map_swapDot_of_digits {l : List Char} (h : ∀ c ∈ l, c.isDigit = true) :
    l.map (fun c => if c = '.' then ',' else c) = l := by
  induction l with
  | nil => rfl
  | cons a t ih =>
    have ha := (isDigit_not_special (h a (List.mem_cons_self a t))).2.2.1
    simp only [List.map_cons, if_neg ha]
    rw [ih fun c hc => h c (List.mem_cons_of_mem a hc)]

/-- C7: `format_monetary` renders every decimal amount with exactly the
requested number of fractional digits after a comma (none, and no comma, when
zero digits are requested), using only digit characters, a possible leading
minus and the comma - never scientific notation, a dot, or floating-point
artifacts - and the two specified examples render as claimed. -/
theorem format_monetary_spec :
    (∀ (m : Int) (e n : Nat), ∃ ip fp : List Char,
      (format_monetary m e n).data = ip ++ (if n = 0 then [] else ',' :: fp)
      ∧ fp.length = n
      ∧ (∀ c ∈ fp, c.isDigit = true)
      ∧ (∀ c ∈ ip, c.isDigit = true ∨ c = '-')
      ∧ (∀ c ∈ (format_monetary m e n).data, c ≠ 'e' ∧ c ≠ 'E' ∧ c ≠ '.'))
    ∧ format_monetary 12345 1 2 = "1234,50"
    ∧ format_monetary 9085000000000001 14 2 = "90,85" := by
  refine ⟨?_, by decide, by decide⟩
  intro m e n
  set v := scaledAmount m e n with hv
  refine ⟨(if v < 0 then ['-'] else []) ++ natStr (v.natAbs / 10 ^ n),
          fracChars (v.natAbs % 10 ^ n) n, ?_, ?_, fracChars_isDigit _ _, ?_, ?_⟩
  · simp only [format_monetary, float_repr, ← hv, List.map_append]
    rw [map_swapDot_of_digits (natStr_isDigit _)]
    by_cases hn : n = 0
    · by_cases hvn : v < 0 <;> simp [hn, hvn]
    · rw [if_neg hn, if_neg hn]
      simp only [List.map_cons, if_pos rfl]
      rw [map_swapDot_of_digits (fracChars_isDigit _ _)]
      by_cases hvn : v < 0 <;> simp [hvn]
  · exact fracChars_length (Nat.mod_lt _ (Nat.pos_pow_of_pos n (by omega)))
  · intro c hc
    rcases List.mem_append.1 hc with h | h
    · right
      by_cases hvn : v < 0
      · rw [if_pos hvn] at h; simpa using h
      · rw [if_neg hvn] at h; simp at h
    · exact Or.inl (natStr_isDigit _ c h)
  · intro c hc
    simp only [format_monetary, float_repr, ← hv, List.map_append] at hc
    rw [map_swapDot_of_digits (natStr_isDigit _)] at hc
    rcases List.mem_append.1 hc with h | h
    · rcases List.mem_append.1 h with h2 | h2
      · have : c = '-' := by
          by_cases hvn : v < 0
          · rw [if_pos hvn] at h2; simpa using h2
          · rw [if_neg hvn] at h2; simp at h2
        subst this; refine ⟨by decide, by decide, by decide⟩
      · have hd := isDigit_not_special (natStr_isDigit _ c h2)
        exact ⟨hd.1, hd.2.1, hd.2.2.1⟩
    · by_cases hn : n = 0
      · simp [hn] at h
      · rw [if_neg hn] at h
        simp only [List.map_cons, if_pos rfl] at h
        rw [map_swapDot_of_digits (fracChars_isDigit _ _)] at h
        rcases List.mem_cons.1 h with h2 | h2
        · subst h2; refine ⟨by decide, by decide, by decide⟩
        · have hd := isDigit_not_special (fracChars_isDigit _ _ c h2)
          exact ⟨hd.1, hd.2.1, hd.2.2.1⟩

/-! ## Structure of the aggregated tax details (claim C3) -/

theorem dictSet_of_not_mem {α : Type} {d : List (AggEntry α)} {k : Nat} {v : AggEntry α}
    (h : d.any (fun e => e.tax_id == k) = false) : dictSet d k v = d ++ [v] := by
  simp [dictSet, h]

/-- Folding the per-tax accumulation of lines 111-120 over a tax-result list
updates every dict entry by the sum of the bases reported for its tax. -/
theorem foldl_aggAdd_eq_map {α : Type} [AddCommMonoid α] :
    ∀ (trs : List (TaxRes α)) (d : List (AggEntry α)),
      trs.foldl (fun d tr => aggAdd d tr.id tr.base) d
        = d.map (fun entry =>
            { entry with tax_base_amount := entry.tax_base_amount
                + ((trs.filter (fun tr => tr.id == entry.tax_id)).map
                    (fun tr => tr.base)).sum }) := by
  intro trs
  induction trs with
  | nil =>
    intro d
    simp only [List.foldl_nil, List.filter_nil, List.map_nil, List.sum_nil, add_zero]
    have hid : (fun entry : AggEntry α =>
        { entry with tax_base_amount := entry.tax_base_amount }) = id := funext fun e => rfl
    rw [hid, List.map_id]
  | cons tr trs ih =>
    intro d
    simp only [List.foldl_cons]
    rw [ih, aggAdd, List.map_map]
    apply List.map_congr_left
    intro e _
    by_cases h : e.tax_id = tr.id
    · simp [Function.comp, h, List.filter_cons, add_assoc]
    · have h2 : ¬ tr.id = e.tax_id := fun hh => h hh.symm
      simp [Function.comp, h, h2, List.filter_cons]

/-- With pairwise distinct tax-line ids, the dict comprehension of
lines 86-90 appends one entry per tax line in order. -/
theorem foldl_dictSet_eq_append {α : Type} [Neg α] [Zero α] :
    ∀ (ls : List (MoveTaxLine α)) (d : List (AggEntry α)),
      (d.map (fun e => e.tax_id) ++ ls.filterMap (fun l => l.tax_line_id)).Nodup →
      ls.foldl
        (fun d l =>
          match l.tax_line_id with
          | none => d
          | some tid => dictSet d tid ⟨tid, taxLineAmount l, 0⟩)
        d
      = d ++ ls.filterMap (fun l => (l.tax_line_id).map (fun tid =>
          { tax_id := tid, tax_amount := taxLineAmount l, tax_base_amount := 0 })) := by
  intro ls
  induction ls with
  | nil => intro d _; simp
  | cons l ls ih =>
    intro d hnd
    cases hl : l.tax_line_id with
    | none =>
      simp only [List.foldl_cons, hl]
      simp only [List.filterMap_cons, hl] at hnd
      rw [ih d hnd]
      simp [List.filterMap_cons, hl]
    | some tid =>
      simp only [List.foldl_cons, hl]
      simp only [List.filterMap_cons, hl] at hnd
      have htid : tid ∉ d.map (fun e => e.tax_id) := by
        rcases List.nodup_append.1 hnd with ⟨_, _, hdisj⟩
        exact fun hmem => hdisj hmem (List.mem_cons_self _ _)
      have hany : d.any (fun e => e.tax_id == tid) = false := by
        rw [List.any_eq_false]
        intro e he
        simp only [beq_iff_eq]
        intro hee
        exact htid (List.mem_map.2 ⟨e, he, hee⟩)
      rw [dictSet_of_not_mem hany]
      rw [ih (d ++ [(⟨tid, taxLineAmount l, 0⟩ : AggEntry α)])
        (by simpa [List.append_assoc] using hnd)]
      simp [List.filterMap_cons, hl]

/-- `aggregated_taxes_details_init` under distinct tax-line ids: one entry
per tax line of the move, in `line_ids` order, base zero. -/
theorem aggregated_taxes_details_init_eq {α : Type} [Neg α] [Zero α] (inv : Invoice α)
    (h : (inv.line_ids.filterMap (fun l => l.tax_line_id)).Nodup) :
    aggregated_taxes_details_init inv
      = inv.line_ids.filterMap (fun l => (l.tax_line_id).map (fun tid =>
          { tax_id := tid, tax_amount := taxLineAmount l, tax_base_amount := 0 })) := by
  have hfold := foldl_dictSet_eq_append inv.line_ids [] (by simpa using h)
  simpa [aggregated_taxes_details_init] using hfold

/-- C3, amended: when the move's tax lines carry pairwise distinct tax ids,
the aggregated tax details contain exactly one entry per tax line of the
move, in the order of the move's tax lines (not the order of first appearance
across invoice lines), keyed by its tax id, with the tax amount taken from
that tax line and the base amount equal to the sum of the per-line bases the
tax engine reports for that tax over the non-display invoice lines. -/
theorem aggregated_tax_details_spec {α : Type} [CommRing α] [Div α]
    (inv : Invoice α) (computeAll : α → InvoiceLine α → TaxesRes α)
    (hnodup : (inv.line_ids.filterMap (fun l => l.tax_line_id)).Nodup) :
    aggregated_tax_details inv computeAll
      = inv.line_ids.filterMap (fun tl => (tl.tax_line_id).map (fun tid =>
          { tax_id := tid, tax_amount := taxLineAmount tl,
            tax_base_amount :=
              (((((inv.invoice_line_ids.filter (fun l => !l.display_type)).map
                    (fun line => (computeAll
                      (line.price_unit * (1 - line.discount / 100)) line).taxes)).flatten).filter
                  (fun tr => tr.id == tid)).map (fun tr => tr.base)).sum })) := by
  unfold aggregated_tax_details
  have h1 : (inv.invoice_line_ids.filter (fun l => !l.display_type)).foldl
      (fun d line => ((computeAll (line.price_unit * (1 - line.discount / 100)) line).taxes).foldl
        (fun d tr => aggAdd d tr.id tr.base) d)
      (aggregated_taxes_details_init inv)
    = ((((inv.invoice_line_ids.filter (fun l => !l.display_type)).map
        (fun line => (computeAll (line.price_unit * (1 - line.discount / 100)) line).taxes)).flatten).foldl
        (fun d tr => aggAdd d tr.id tr.base) (aggregated_taxes_details_init inv)) := by
    rw [List.foldl_flatten, List.foldl_map]
  rw [h1, foldl_aggAdd_eq_map, aggregated_taxes_details_init_eq inv hnodup,
    List.map_filterMap]
  refine congrArg (fun g => List.filterMap g inv.line_ids) (funext fun tl => ?_)
  cases tl.tax_line_id with
  | none => rfl
  | some tid => simp

/-- A three-line invoice: two lines share tax 1, one line bears tax 2; the
move's tax lines carry the matching aggregate amounts. -/
def scenarioInvoice : Invoice Int :=
  { name := "INV/2024/002",
    company_id := sampleCompany,
    commercial_partner_id := samplePartner,
    partner_shipping_id := none,
    line_ids := [⟨some 1, false, -72, -72⟩, ⟨some 2, false, -5, -5⟩],
    invoice_line_ids := [⟨false, 100, 0, 1⟩, ⟨false, 200, 0, 1⟩, ⟨false, 50, 0, 1⟩] }

/-- A concrete tax engine for `scenarioInvoice`: 24 percent tax 1 on the two
lines priced 100 and 200, 10 percent tax 2 on the line priced 50. -/
def scenarioComputeAll : Int → InvoiceLine Int → TaxesRes Int := fun _ line =>
  if line.price_unit == 100 then ⟨100, [⟨1, 24, 100⟩]⟩
  else if line.price_unit == 200 then ⟨200, [⟨1, 48, 200⟩]⟩
  else ⟨50, [⟨2, 5, 50⟩]⟩

/-- C3, witness: `aggregated_tax_details_spec` on the two-taxes scenario -
exactly two aggregated entries, with base and amount equal to the sums over
the lines using each tax. -/
theorem aggregated_tax_details_spec_witness :
    ((scenarioInvoice.line_ids.filterMap (fun l => l.tax_line_id)).Nodup)
    ∧ aggregated_tax_details scenarioInvoice scenarioComputeAll
        = [{ tax_id := 1, tax_amount := 72, tax_base_amount := 300 },
           { tax_id := 2, tax_amount := 5, tax_base_amount := 50 }] :=
  ⟨by decide,
   (aggregated_tax_details_spec scenarioInvoice scenarioComputeAll (by decide)).trans
     (by decide)⟩

/-- The two-line invoice of the order counterexample: invoice lines bear
tax 1 then tax 2, but the move's tax lines are ordered tax 2 then tax 1. -/
def orderInvoice : Invoice Int :=
  { name := "INV/2024/003",
    company_id := sampleCompany,
    commercial_partner_id := samplePartner,
    partner_shipping_id := none,
    line_ids := [⟨some 2, false, -5, -5⟩, ⟨some 1, false, -24, -24⟩],
    invoice_line_ids := [⟨false, 100, 0, 1⟩, ⟨false, 50, 0, 1⟩] }

/-- A concrete tax engine for `orderInvoice`: tax 1 on the line priced 100,
tax 2 on the line priced 50. -/
def orderComputeAll : Int → InvoiceLine Int → TaxesRes Int := fun _ line =>
  if line.price_unit == 100 then ⟨100, [⟨1, 24, 100⟩]⟩
  else ⟨50, [⟨2, 5, 50⟩]⟩

/-- C3, counterexample: the taxes appear across the invoice lines in the
first-seen order 1, 2, yet the aggregated entries come out keyed 2, 1 - the
aggregation preserves the order of the move's tax lines, not the order of
first appearance over the invoice lines. -/
theorem aggregated_tax_details_order_counterexample :
    ((orderInvoice.invoice_line_ids.filter (fun l => !l.display_type)).map
        (fun line => (orderComputeAll
          (line.price_unit * (1 - line.discount / 100)) line).taxes.map
            (fun tr => tr.id))).flatten = [1, 2]
    ∧ (aggregated_tax_details orderInvoice orderComputeAll).map (fun entry => entry.tax_id)
        = [2, 1]
    ∧ (aggregated_tax_details orderInvoice orderComputeAll).map (fun entry => entry.tax_id)
        ≠ [1, 2] := by
  refine ⟨by decide, by decide, by decide⟩

end Ahkio
